import Mathlib

/-!
Verification development for the OMR (optical music recognition) inference
pipeline in `omr_service_real.py`.  The pipeline's post-processing steps are
shallowly embedded: images are lists of rows of BGR pixel triples, probability
maps are lists of rows of rationals (numpy float arrays modelled over `Rat`),
numpy slicing is modelled with its clipping behaviour, `cv2.resize` with
`INTER_NEAREST` is modelled by the OpenCV coordinate map
`src = floor(dst * srcSize / dstSize)`, and `cv2.findContours` with
`RETR_EXTERNAL` followed by `cv2.boundingRect` is modelled as the bounding
boxes of the 8-connected components of the binary mask, listed in the order
`findContours` returns them: the border following scans the mask in raster
order but prepends each completed contour to its sibling list, so the output
sequence is the REVERSE of raster discovery order, bottom-most component
first (faithful for masks without nested structures, which is all the
pipeline ever distinguishes).  Python's stable `sorted` is modelled by a
stable insertion sort.  The two opaque TFLite inference engines are treated as
abstract inputs: the staff-segmentation engine contributes its output
probability map, the classifier its prediction vector, and at the service
level fallible engine calls are values of `Except String`.
-/

/-- A BGR pixel: (blue, green, red), each an 8-bit intensity. -/
abbrev Pixel := Nat × Nat × Nat

/-- A BGR image as a list of rows. -/
abbrev Img := List (List Pixel)

/-- A single-channel 8-bit image. -/
abbrev GrayImg := List (List Nat)

/-- A real-valued single-channel buffer (numpy float array over `Rat`). -/
abbrev RatGrid := List (List Rat)

/-- A binary mask (`true` = nonzero pixel). -/
abbrev BoolGrid := List (List Bool)

/-- Pixel coordinates as (row, column). -/
abbrev Coord := Nat × Nat

/-- OpenCV fixed-point BGR-to-gray conversion:
`Y = (1868*B + 9617*G + 4899*R + 8192) >> 14` (`cv2.cvtColor BGR2GRAY`). -/
def bgr2gray (p : Pixel) : Nat :=
  (1868 * p.1 + 9617 * p.2.1 + 4899 * p.2.2 + 8192) / 16384

/-- Grayscale conversion of a whole image. -/
def grayOf (img : Img) : GrayImg :=
  img.map (fun row => row.map bgr2gray)

/-- Numpy 2-D slice `a[y:y+h, x:x+w]`; `drop`/`take` reproduce numpy's
out-of-range clipping. -/
def npSlice (g : List (List α)) (y h x w : Nat) : List (List α) :=
  ((g.drop y).take h).map (fun row => (row.drop x).take w)

/-- Sum of all entries of a rational grid. -/
def gridSum (g : RatGrid) : Rat :=
  (g.map (fun row => row.foldr (fun a b => a + b) 0)).foldr (fun a b => a + b) 0

/-- Number of entries of a grid. -/
def gridCount (g : List (List α)) : Nat :=
  (g.map List.length).foldr (fun a b => a + b) 0

/-- Model of `np.mean` over a grid.  Numpy returns NaN on an empty array;
here the `Rat` division by zero yields 0.  No claim is settled on that edge
case. -/
def npMean (g : RatGrid) : Rat :=
  gridSum g / (gridCount g : Rat)

/-- Model of `cv2.resize` with `INTER_NEAREST`: destination pixel `(i, j)`
reads source pixel `(floor(i*srcH/dstH), floor(j*srcW/dstW))`. -/
def resizeNearest (g : List (List α)) (dflt : α) (dstH dstW : Nat) : List (List α) :=
  let srcH := g.length
  let srcW := (g.headD []).length
  (List.range dstH).map (fun i =>
    (List.range dstW).map (fun j =>
      ((g.getD (i * srcH / dstH) []).getD (j * srcW / dstW) dflt)))

/-- The raster-scan list of coordinates of `true` pixels of a mask. -/
def maskFg (m : BoolGrid) : List Coord :=
  ((List.range m.length).map (fun y =>
    (List.range ((m.getD y []).length)).filterMap (fun x =>
      if (m.getD y []).getD x false then some (y, x) else none))).flatten

/-- 8-neighbourhood adjacency of two distinct pixels. -/
def adj8 (p q : Coord) : Bool :=
  decide (p ≠ q) && (p.1 - q.1 ≤ 1) && (q.1 - p.1 ≤ 1)
    && (p.2 - q.2 ≤ 1) && (q.2 - p.2 ≤ 1)

/-- Breadth-first flood fill: `s` is the component built so far, `frontier`
its most recent layer; each round adjoins the unvisited foreground pixels
adjacent to the frontier.  The fuel `fg.length` suffices since every round
short of saturation adds at least one pixel. -/
def floodGo (fg : List Coord) : Nat → List Coord → List Coord → List Coord
  | 0, s, _ => s
  | Nat.succ n, s, frontier =>
    match fg.filter (fun q => decide (q ∉ s) && frontier.any (fun p => adj8 p q)) with
    | [] => s
    | next => floodGo fg n (s ++ next) next

/-- The 8-connected component of `p` within the foreground pixel list `fg`. -/
def component (fg : List Coord) (p : Coord) : List Coord :=
  floodGo fg fg.length [p] [p]

/-- Raster-scan collection of components: walk the foreground pixels in
raster order, flooding a new component at each pixel not yet assigned. -/
def componentsGo (fg : List Coord) : List Coord → List Coord → List (List Coord)
  | [], _ => []
  | p :: rest, seen =>
    if p ∈ seen then componentsGo fg rest seen
    else component fg p :: componentsGo fg rest (seen ++ component fg p)

/-- The 8-connected components of a foreground pixel list, in the order
`cv2.findContours(mask, RETR_EXTERNAL, ...)` returns them on non-nested
masks: OpenCV prepends each newly traced contour to the sibling list, so the
returned sequence is the reverse of raster-scan discovery order (the
bottom-most component comes first). -/
def rasterComponents (fg : List Coord) : List (List Coord) :=
  (componentsGo fg fg []).reverse

/-- An axis-aligned bounding box `(x, y, w, h)` as produced by
`cv2.boundingRect`. -/
structure BBox where
  x : Nat
  y : Nat
  w : Nat
  h : Nat
deriving DecidableEq

/-- Minimum of a list of naturals (0 on the empty list). -/
def listMin (l : List Nat) : Nat :=
  l.foldr min (l.headD 0)

/-- Maximum of a list of naturals. -/
def listMax (l : List Nat) : Nat :=
  l.foldr max 0

/-- Bounding box of a nonempty coordinate list (`cv2.boundingRect`). -/
def bboxOf (c : List Coord) : BBox :=
  let xs := c.map Prod.snd
  let ys := c.map Prod.fst
  { x := listMin xs, y := listMin ys,
    w := listMax xs + 1 - listMin xs, h := listMax ys + 1 - listMin ys }

/-- Stable insertion of `a` into `l` by a natural-number key: `a` goes in
front of the first element whose key is not smaller. -/
def insertOn (key : α → Nat) (a : α) : List α → List α
  | [] => [a]
  | b :: l => if key a ≤ key b then a :: b :: l else b :: insertOn key a l

/-- Stable sort by a natural-number key; models Python's stable `sorted`. -/
def sortOn (key : α → Nat) (l : List α) : List α :=
  l.foldr (insertOn key) []

/-- A detected staff region: bounding box plus the confidence computed by
`StaffDetector.detect` (the contour returned alongside is dropped, no claim
mentions it). -/
structure StaffRegion where
  bbox : BBox
  confidence : Rat
deriving DecidableEq

/-- The dictionary returned by `StaffDetector.detect`. -/
structure DetectResult where
  staffs : List StaffRegion
  segmentation_mask : BoolGrid
  confidence : Rat
deriving DecidableEq

/-- Binarization `(segmentation[:, :, 0] > 0.5).astype(np.uint8)`. -/
def binarize05 (seg : RatGrid) : BoolGrid :=
  seg.map (fun row => row.map (fun v => decide ((1 : Rat) / 2 < v)))

/-- The step `cv2.resize(mask, (w, h), interpolation=cv2.INTER_NEAREST)`:
the binary mask brought back to the original image resolution `h × w`. -/
def detectMask (seg : RatGrid) (h w : Nat) : BoolGrid :=
  resizeNearest (binarize05 seg) false h w

/-- The contour list of `cv2.findContours(mask, RETR_EXTERNAL, ...)`,
modelled as 8-connected components in reverse raster discovery order. -/
def detectComps (seg : RatGrid) (h w : Nat) : List (List Coord) :=
  rasterComponents (maskFg (detectMask seg h w))

/-- The region record built for one contour: bounding box, and
`float(np.mean(segmentation[y:y+h_box, x:x+w_box]))` — note the slice indexes
the RAW model-resolution `segmentation` array with mask-resolution
coordinates, clipped by numpy slicing. -/
def regionOf (seg : RatGrid) (c : List Coord) : StaffRegion :=
  { bbox := bboxOf c,
    confidence := npMean (npSlice seg (bboxOf c).y (bboxOf c).h (bboxOf c).x (bboxOf c).w) }

/-- The `staffs` list in contour order: the `for cnt in contours` loop with
the `h_box > 20` noise filter. -/
def detectRegionsRaw (seg : RatGrid) (h w : Nat) : List StaffRegion :=
  (detectComps seg h w).filterMap (fun c =>
    if 20 < (bboxOf c).h then some (regionOf seg c) else none)

/-- Post-processing of `StaffDetector.detect`: the opaque TFLite engine
output `seg` and the original image size `h × w` are the inputs; the
returned staffs are sorted by bounding-box `y` with Python's stable
`sorted`. -/
def staffDetect (seg : RatGrid) (h w : Nat) : DetectResult :=
  { staffs := sortOn (fun r => r.bbox.y) (detectRegionsRaw seg h w),
    segmentation_mask := detectMask seg h w,
    confidence := npMean seg }

/-- Modelled from the spec words of claim C1, for refinement comparison only:
the mean of the probability mask over the bounding box, with the mask first
resized back to the original image resolution by nearest-neighbor, so that
the bbox coordinates and the mask coordinates agree. -/
def specRegionConfidence (seg : RatGrid) (h w : Nat) (b : BBox) : Rat :=
  npMean (npSlice (resizeNearest seg 0 h w) b.y b.h b.x b.w)

/-- Concrete engine output for the C1 analysis: a 2 × 1 probability map, both
entries above threshold, paired with an original image size of 21 × 1. -/
def exSeg1 : RatGrid := [[9 / 10], [6 / 10]]

/-- Concrete engine output for the C6 boundary analysis: a 22 × 4 probability
map (image size also 22 × 4, so the resize is the identity) holding one
column-component of height 21 and one of height 20. -/
def exSeg6 : RatGrid :=
  (List.range 22).map (fun y => (List.range 4).map (fun x =>
    if (x = 0 ∧ y ≤ 20) ∨ (x = 2 ∧ y ≤ 19) then 9 / 10 else 1 / 10))

/-- Thresholding `cv2.threshold(gray, 127, 255, cv2.THRESH_BINARY_INV)`: the
result is 255 (here `true`) exactly where `gray ≤ 127`, 0 otherwise. -/
def binInv127 (g : GrayImg) : BoolGrid :=
  g.map (fun row => row.map (fun v => decide (v ≤ 127)))

/-- The crop `staff_image[y:y+h, x:x+w]`. -/
def cropImg (img : Img) (b : BBox) : Img :=
  npSlice img b.y b.h b.x b.w

/-- The symbol bounding boxes of `_extract_symbols` in the contour list
order of `findContours` (reverse raster discovery), after the
`w > 5 and h > 5` noise filter. -/
def symbolBoxes (img : Img) : List BBox :=
  ((rasterComponents (maskFg (binInv127 (grayOf img)))).map bboxOf).filter
    (fun b => decide (5 < b.w) && decide (5 < b.h))

/-- The sort key of `_extract_symbols`:
`cv2.boundingRect(cv2.findNonZero(cv2.cvtColor(s, COLOR_BGR2GRAY)))[0]` with
fallback 0 when `findNonZero` returns None.  The nonzero test is on the raw
GRAYSCALE crop, so any non-black pixel (white background included) counts;
the key is the minimum x among such pixels, relative to the crop. -/
def codeSymKey (s : Img) : Nat :=
  match maskFg ((grayOf s).map (fun row => row.map (fun v => decide (v ≠ 0)))) with
  | [] => 0
  | nz => listMin (nz.map Prod.snd)

/-- Model of `OMRService._extract_symbols`: crop each filtered component's
bounding box out of the staff image, then sort the crops with Python's
stable `sorted` by `codeSymKey`. -/
def extractSymbols (img : Img) : List Img :=
  sortOn codeSymKey ((symbolBoxes img).map (cropImg img))

/-- Modelled from the spec words of claim C2, for refinement comparison only:
the x-coordinate, within the staff crop, of a symbol crop's first foreground
pixel, where foreground is dark ink (nonzero under the inverted binarization
at threshold 127); a crop containing no foreground pixel gets key 0. -/
def specSymKey (img : Img) (b : BBox) : Nat :=
  match maskFg (binInv127 (grayOf (cropImg img b))) with
  | [] => 0
  | fg => b.x + listMin (fg.map Prod.snd)

/-- Modelled from the spec words of claim C2, for refinement comparison only:
the symbol crops ordered by ascending leftmost-foreground x. -/
def specOrderedSymbols (img : Img) : List Img :=
  (sortOn (specSymKey img) (symbolBoxes img)).map (cropImg img)

/-- Concrete staff crop for the C2 analysis: a 12 × 16 white image with two
black 6 × 6 blobs, one at rows 0–5 and columns 2–7, and one at rows 6–11 and
columns 10–15 (with its pixel (6, 10) left white, so its crop differs from
the other).  `findContours` returns the bottom-most contour first, so the
lower-right blob — whose ink starts at x = 10, to the right of the upper
blob's x = 2 — heads the contour list. -/
def exSymImg : Img :=
  (List.range 12).map (fun y => (List.range 16).map (fun x =>
    if (y ≤ 5 ∧ 2 ≤ x ∧ x ≤ 7) ∨ (6 ≤ y ∧ 10 ≤ x ∧ ¬(y = 6 ∧ x = 10))
    then (0, 0, 0) else (255, 255, 255)))

/-- The dictionary returned by `SymbolRecognizer.recognize` (field
`className` models the key named `class` in the Python dict). -/
structure RecogResult where
  className : String
  class_id : Nat
  confidence : Rat
  all_predictions : List (String × Rat)
deriving DecidableEq

/-- A class-index-to-label mapping (`self.class_mapping`; a Python dict,
modelled as a partial function). -/
abbrev ClassMap := Nat → Option String

/-- Accumulator walk for `np.argmax`: keeps the first index of the running
maximum, replacing it only on a strictly larger value. -/
def argmaxGo : List Rat → Nat → Nat → Rat → Nat
  | [], _, bi, _ => bi
  | p :: rest, i, bi, bv =>
    if bv < p then argmaxGo rest (i + 1) i p else argmaxGo rest (i + 1) bi bv

/-- Model of `np.argmax` over a 1-D array: the first index attaining the
maximum.  Numpy raises on an empty array; modelled as 0, and no claim is
settled on that edge case. -/
def np_argmax : List Rat → Nat
  | [] => 0
  | p :: rest => argmaxGo rest 1 0 p

/-- Lookup `self.class_mapping.get(i, f'class_{i}')`. -/
def classLabel (m : ClassMap) (i : Nat) : String :=
  (m i).getD ("class_" ++ toString i)

/-- The post-processing of `SymbolRecognizer.recognize` on the engine's
prediction vector (the preceding resize/normalize/invoke is the opaque
engine).  Python builds `all_predictions` as a dict comprehension, which
would collapse duplicate labels; it is modelled as the association list of
(label, probability) pairs in index order. -/
def recognizePost (m : ClassMap) (preds : List Rat) : RecogResult :=
  { className := classLabel m (np_argmax preds),
    class_id := np_argmax preds,
    confidence := preds.getD (np_argmax preds) 0,
    all_predictions := preds.enum.map (fun p => (classLabel m p.1, p.2)) }

/-- An opaque loaded staff-detection engine, as used by `scan_sheet_music`:
its `detect` call may raise (`Except.error` carries `str(e)`). -/
structure StaffEngine where
  detect : Img → Except String DetectResult

/-- An opaque loaded symbol-recognition engine. -/
structure SymbolEngine where
  recognize : Img → Except String RecogResult

/-- The `OMRService` instance state: the three attributes set by
`__init__`. -/
structure OMRService where
  staff_detector : Option StaffEngine
  symbol_recognizer : Option SymbolEngine
  is_initialized : Bool

/-- The state right after `OMRService.__init__`. -/
def initialState : OMRService :=
  { staff_detector := none, symbol_recognizer := none, is_initialized := false }

/-- The message of the AttributeError Python raises when a method is called
on `None` (Python quotes the two names; the quotes are elided here). -/
def noneTypeNoAttr (a : String) : String :=
  "NoneType object has no attribute " ++ a

/-- The call `self.staff_detector.detect(image)`: raises an AttributeError
when the attribute is still `None`. -/
def callDetect : Option StaffEngine → Img → Except String DetectResult
  | none, _ => Except.error (noneTypeNoAttr "detect")
  | some e, img => e.detect img

/-- The call `self.symbol_recognizer.recognize(symbol_img)`. -/
def callRecognize : Option SymbolEngine → Img → Except String RecogResult
  | none, _ => Except.error (noneTypeNoAttr "recognize")
  | some e, img => e.recognize img

/-- One entry of a measure's `symbols` list. -/
structure SymbolEntry where
  index : Nat
  type : String
  confidence : Rat
  position_x : Nat
deriving DecidableEq

/-- One entry of the `measures` list. -/
structure Measure where
  staff_id : Nat
  symbols : List SymbolEntry
deriving DecidableEq

/-- The dictionary returned by `scan_sheet_music`, with one optional field
per key that some branch omits. -/
structure ScanResult where
  success : Bool
  error : Option String
  measures : Option (List Measure)
  warning : Option String
  confidence : Option Rat
  num_staffs : Option Nat
deriving DecidableEq

/-- The early return `{'success': False, 'error': 'OMR service not initialized'}`. -/
def notInitResult : ScanResult :=
  { success := false, error := some "OMR service not initialized",
    measures := none, warning := none, confidence := none, num_staffs := none }

/-- The catch-all conversion `{'success': False, 'error': str(e)}`. -/
def scanFailure (e : String) : ScanResult :=
  { success := false, error := some e,
    measures := none, warning := none, confidence := none, num_staffs := none }

/-- The zero-staffs return of `scan_sheet_music`. -/
def noStaffsResult : ScanResult :=
  { success := true, error := none, measures := some [],
    warning := some "No staffs detected in image", confidence := none, num_staffs := none }

/-- Size `symbol_img.size` up to the constant channel factor: the number of
pixel positions in the crop (`> 0` exactly when numpy's `size > 0`). -/
def imgSize (s : Img) : Nat :=
  (s.map List.length).foldr (fun a b => a + b) 0

/-- The `for sym_idx, symbol_img in enumerate(symbols)` loop: recognize each
crop of positive size; the first raised exception aborts the scan. -/
def buildSymbols (rec : Option SymbolEngine) :
    List (Nat × Img) → Except String (List SymbolEntry)
  | [] => Except.ok []
  | (i, s) :: rest =>
    if 0 < imgSize s then
      match callRecognize rec s with
      | Except.error e => Except.error e
      | Except.ok r =>
        match buildSymbols rec rest with
        | Except.error e => Except.error e
        | Except.ok tl =>
          Except.ok ({ index := i, type := r.className, confidence := r.confidence,
                       position_x := i } :: tl)
    else buildSymbols rec rest

/-- The `for staff_idx, staff in enumerate(staffs)` loop: crop the staff
region, extract symbols, recognize them, assemble a measure per staff. -/
def buildMeasures (rec : Option SymbolEngine) (img : Img) :
    List (Nat × StaffRegion) → Except String (List Measure)
  | [] => Except.ok []
  | (i, staff) :: rest =>
    match buildSymbols rec (extractSymbols (cropImg img staff.bbox)).enum with
    | Except.error e => Except.error e
    | Except.ok entries =>
      match buildMeasures rec img rest with
      | Except.error e => Except.error e
      | Except.ok ms => Except.ok ({ staff_id := i, symbols := entries } :: ms)

/-- The body of the `try` block of `scan_sheet_music` (steps 1–3):
`Except.error` is a raised exception reaching the `except` clause. -/
def scanBody (st : OMRService) (img : Img) : Except String ScanResult :=
  match callDetect st.staff_detector img with
  | Except.error e => Except.error e
  | Except.ok dr =>
    if dr.staffs.isEmpty then Except.ok noStaffsResult
    else
      match buildMeasures st.symbol_recognizer img dr.staffs.enum with
      | Except.error e => Except.error e
      | Except.ok ms =>
        Except.ok { success := true, error := none, measures := some ms, warning := none,
                    confidence := some dr.confidence, num_staffs := some dr.staffs.length }

/-- Model of `OMRService.scan_sheet_music`: the readiness check, then the
`try` body with the catch-all `except Exception` conversion. -/
def scanSheetMusic (st : OMRService) (img : Img) : ScanResult :=
  if st.is_initialized then
    match scanBody st img with
    | Except.error e => scanFailure e
    | Except.ok r => r
  else notInitResult

/-- The dictionary returned by `OMRService.initialize`. -/
structure InitResult where
  success : Bool
  message : Option String
  error : Option String
deriving DecidableEq

/-- Default `class_mapping or {}` for an absent mapping. -/
def emptyClassMap : ClassMap := fun _ => none

/-- The second half of `initialize`: the optional symbol-recognizer load,
then `self.is_initialized = True` and the success return.  A load failure
returns the caught error and leaves the state as it stood (the flag is not
set). -/
def initSymbolStage (loadY : String → ClassMap → Except String SymbolEngine)
    (st : OMRService) (symbolPath : Option String) (cm : Option ClassMap) :
    InitResult × OMRService :=
  match symbolPath with
  | none =>
    ({ success := true, message := some "OMR service initialized", error := none },
     { st with is_initialized := true })
  | some p =>
    match loadY p (cm.getD emptyClassMap) with
    | Except.error e => ({ success := false, message := none, error := some e }, st)
    | Except.ok r =>
      ({ success := true, message := some "OMR service initialized", error := none },
       { st with symbol_recognizer := some r, is_initialized := true })

/-- Model of `OMRService.initialize`: the engine loaders stand for the
opaque `StaffDetector` / `SymbolRecognizer` constructors, whose exceptions
are the `Except.error` results.  A failure after the staff load keeps the
already assigned `staff_detector` (Python assigned the attribute before
raising). -/
def initService (loadS : String → Except String StaffEngine)
    (loadY : String → ClassMap → Except String SymbolEngine)
    (st : OMRService) (staffPath symbolPath : Option String) (cm : Option ClassMap) :
    InitResult × OMRService :=
  match staffPath with
  | none => initSymbolStage loadY st symbolPath cm
  | some p =>
    match loadS p with
    | Except.error e => ({ success := false, message := none, error := some e }, st)
    | Except.ok d => initSymbolStage loadY { st with staff_detector := some d } symbolPath cm

/-- One call to `initialize`, with its loader behaviours and arguments. -/
structure InitCall where
  loadS : String → Except String StaffEngine
  loadY : String → ClassMap → Except String SymbolEngine
  staffPath : Option String
  symbolPath : Option String
  cm : Option ClassMap

/-- Run a sequence of `initialize` calls, threading the service state. -/
def runInits : OMRService → List InitCall → OMRService
  | st, [] => st
  | st, c :: rest =>
    runInits (initService c.loadS c.loadY st c.staffPath c.symbolPath c.cm).2 rest

/-- Whether every call of the sequence returns `success=False`. -/
def allInitsFail : OMRService → List InitCall → Bool
  | _, [] => true
  | st, c :: rest =>
    !(initService c.loadS c.loadY st c.staffPath c.symbolPath c.cm).1.success
      && allInitsFail (initService c.loadS c.loadY st c.staffPath c.symbolPath c.cm).2 rest

/-- A concrete `initialize` call whose staff-engine load fails. -/
def failingLoadCall : InitCall :=
  { loadS := fun _ => Except.error "Model file not found",
    loadY := fun _ _ => Except.error "Model file not found",
    staffPath := some "staff.tflite", symbolPath := none, cm := none }

/-- A staff engine that always reports zero regions. -/
def emptyDetEngine : StaffEngine :=
  { detect := fun _ => Except.ok { staffs := [], segmentation_mask := [], confidence := 0 } }

/-- The Python object world for the singleton analysis: the class attribute
`OMRService._instance` (an optional reference), a heap from references to
instance states, and the next fresh reference. -/
structure PyWorld where
  instRef : Option Nat
  heap : Nat → OMRService
  next : Nat

/-- Evaluating `OMRService()`: `__new__` returns the cached instance or
allocates and caches a fresh one, and Python then always runs `__init__` on
the returned instance, resetting its three attributes. -/
def constructOMRService (w : PyWorld) : Nat × PyWorld :=
  match w.instRef with
  | some r =>
    (r, { w with heap := fun n => if n = r then initialState else w.heap n })
  | none =>
    (w.next,
     { instRef := some w.next,
       heap := fun n => if n = w.next then initialState else w.heap n,
       next := w.next + 1 })

/-- Overwrite one instance state on the heap (stands for any mutation of the
instance between constructions, such as a successful `initialize`). -/
def setInstanceState (w : PyWorld) (r : Nat) (st : OMRService) : PyWorld :=
  { w with heap := fun n => if n = r then st else w.heap n }

theorem mem_insertOn (key : α → Nat) (a b : α) (l : List α) :
    b ∈ insertOn key a l ↔ b = a ∨ b ∈ l := by
  induction l with
  | nil => simp [insertOn]
  | cons c t ih =>
    by_cases h : key a ≤ key c
    · simp [insertOn, h]
    · simp only [insertOn, if_neg h, List.mem_cons, ih]
      tauto

theorem mem_sortOn (key : α → Nat) (l : List α) (a : α) :
    a ∈ sortOn key l ↔ a ∈ l := by
  induction l with
  | nil => simp [sortOn]
  | cons b t ih =>
    have h1 : sortOn key (b :: t) = insertOn key b (sortOn key t) := rfl
    rw [h1, mem_insertOn, ih]
    simp

theorem pairwise_insertOn (key : α → Nat) (a : α) (l : List α)
    (hl : l.Pairwise (fun x y => key x ≤ key y)) :
    (insertOn key a l).Pairwise (fun x y => key x ≤ key y) := by
  induction l with
  | nil => simp [insertOn]
  | cons b t ih =>
    rcases List.pairwise_cons.mp hl with ⟨hb, ht⟩
    by_cases h : key a ≤ key b
    · rw [show insertOn key a (b :: t) = a :: b :: t from by simp [insertOn, h]]
      refine List.pairwise_cons.mpr ⟨?_, hl⟩
      intro x hx
      rcases List.mem_cons.mp hx with rfl | hx
      · exact h
      · exact le_trans h (hb x hx)
    · rw [show insertOn key a (b :: t) = b :: insertOn key a t from by simp [insertOn, h]]
      refine List.pairwise_cons.mpr ⟨?_, ih ht⟩
      intro x hx
      rcases (mem_insertOn key a x t).mp hx with rfl | hx
      · exact le_of_lt (Nat.lt_of_not_le h)
      · exact hb x hx

theorem pairwise_sortOn (key : α → Nat) (l : List α) :
    (sortOn key l).Pairwise (fun x y => key x ≤ key y) := by
  induction l with
  | nil => simp [sortOn]
  | cons b t ih => exact pairwise_insertOn key b (sortOn key t) ih

theorem filter_key_insertOn (key : α → Nat) (a : α) (l : List α) (k : Nat) :
    (insertOn key a l).filter (fun b => key b == k)
      = (a :: l).filter (fun b => key b == k) := by
  induction l with
  | nil => simp [insertOn]
  | cons c t ih =>
    by_cases h : key a ≤ key c
    · simp [insertOn, h]
    · have hstep : insertOn key a (c :: t) = c :: insertOn key a t := by
        simp [insertOn, h]
      rw [hstep, List.filter_cons, ih]
      by_cases hc : key c = k
      · have ha : ¬ key a = k := by omega
        simp [List.filter_cons, beq_iff_eq, hc, ha]
      · simp [List.filter_cons, beq_iff_eq, hc]

theorem filter_key_sortOn (key : α → Nat) (l : List α) (k : Nat) :
    (sortOn key l).filter (fun b => key b == k) = l.filter (fun b => key b == k) := by
  induction l with
  | nil => simp [sortOn]
  | cons b t ih =>
    have h1 : sortOn key (b :: t) = insertOn key b (sortOn key t) := rfl
    rw [h1, filter_key_insertOn, List.filter_cons, List.filter_cons, ih]

theorem mem_staffs_iff (seg : RatGrid) (h w : Nat) (r : StaffRegion) :
    r ∈ (staffDetect seg h w).staffs ↔
      ∃ c ∈ detectComps seg h w, 20 < (bboxOf c).h ∧ r = regionOf seg c := by
  unfold staffDetect
  rw [mem_sortOn]
  unfold detectRegionsRaw
  rw [List.mem_filterMap]
  constructor
  · rintro ⟨c, hc, hite⟩
    by_cases hh : 20 < (bboxOf c).h
    · rw [if_pos hh] at hite
      exact ⟨c, hc, hh, (Option.some_inj.mp hite).symm⟩
    · rw [if_neg hh] at hite
      cases hite
  · rintro ⟨c, hc, hh, rfl⟩
    exact ⟨c, hc, by rw [if_pos hh]⟩

/-- C1, amended: the confidence of each staff region returned by
`StaffDetector.detect` is the mean of the RAW model-resolution probability
map over the slice `segmentation[y:y+h, x:x+w]` (with numpy clipping) — the
bounding-box coordinates, which live in the resized-mask frame, are applied
to the unresized array. -/
theorem staff_confidence_eq_raw_seg_mean (seg : RatGrid) (h w : Nat) (r : StaffRegion)
    (hr : r ∈ (staffDetect seg h w).staffs) :
    r.confidence = npMean (npSlice seg r.bbox.y r.bbox.h r.bbox.x r.bbox.w) := by
  rcases (mem_staffs_iff seg h w r).mp hr with ⟨c, _, _, rfl⟩
  rfl

/-- Witness for the amended C1 theorem: on the engine output `exSeg1` with
original image size 21 × 1, the detector returns one region, whose confidence
equals the mean of the raw 2 × 1 probability map over its clipped bbox. -/
theorem staff_confidence_eq_raw_seg_mean_witness :
    ({ bbox := { x := 0, y := 0, w := 1, h := 21 }, confidence := 3 / 4 } : StaffRegion)
        ∈ (staffDetect exSeg1 21 1).staffs
    ∧ ({ bbox := { x := 0, y := 0, w := 1, h := 21 }, confidence := 3 / 4 } : StaffRegion).confidence
        = npMean (npSlice exSeg1 0 21 0 1) :=
  ⟨by with_unfolding_all decide,
   staff_confidence_eq_raw_seg_mean exSeg1 21 1 _ (by with_unfolding_all decide)⟩

/-- C1, counterexample: on the engine output `exSeg1` (a 2 × 1 probability
map, values 9/10 and 6/10) and original image size 21 × 1, the detected
region has confidence 3/4 (mean of the raw map over the clipped bbox slice),
while the mean of the probability mask resized back to the 21 × 1 image
resolution over the same bbox is 53/70: the claim that the confidence equals
the resized-mask mean is false on this input. -/
theorem staff_confidence_not_resized_mask_mean :
    ¬ ∀ r ∈ (staffDetect exSeg1 21 1).staffs,
        r.confidence = specRegionConfidence exSeg1 21 1 r.bbox := by
  intro hall
  have h1 : (3 / 4 : Rat)
      = specRegionConfidence exSeg1 21 1 { x := 0, y := 0, w := 1, h := 21 } :=
    hall { bbox := { x := 0, y := 0, w := 1, h := 21 }, confidence := 3 / 4 }
      (by with_unfolding_all decide)
  have h2 : specRegionConfidence exSeg1 21 1 { x := 0, y := 0, w := 1, h := 21 } = 53 / 70 := by
    with_unfolding_all decide
  rw [h2] at h1
  exact absurd h1 (by with_unfolding_all decide)

/-- C6: every region returned by `StaffDetector.detect` has bounding-box
height strictly greater than 20; a connected component whose bounding-box
height exceeds 20 (so height 21) is kept, and one whose height is at most 20
(so height 20) is discarded. -/
theorem staff_height_filter (seg : RatGrid) (h w : Nat) :
    (∀ r ∈ (staffDetect seg h w).staffs, 20 < r.bbox.h)
    ∧ (∀ c ∈ detectComps seg h w, 20 < (bboxOf c).h →
        regionOf seg c ∈ (staffDetect seg h w).staffs)
    ∧ (∀ c ∈ detectComps seg h w, (bboxOf c).h ≤ 20 →
        regionOf seg c ∉ (staffDetect seg h w).staffs) := by
  refine ⟨?_, ?_, ?_⟩
  · intro r hr
    rcases (mem_staffs_iff seg h w r).mp hr with ⟨c, _, hh, rfl⟩
    exact hh
  · intro c hc hh
    exact (mem_staffs_iff seg h w _).mpr ⟨c, hc, hh, rfl⟩
  · intro c _ hle hmem
    rcases (mem_staffs_iff seg h w _).mp hmem with ⟨c2, _, hh2, heq⟩
    have h20 : 20 < (regionOf seg c).bbox.h := by
      rw [heq]
      exact hh2
    have hb : (regionOf seg c).bbox.h = (bboxOf c).h := rfl
    omega

/-- Witness for C6: on `exSeg6` (image size 22 × 4) the mask holds two
components, of bounding-box heights exactly 20 (listed first by the reverse
discovery order) and exactly 21; the height-21 one is kept, the height-20
one discarded. -/
theorem staff_height_filter_witness :
    regionOf exSeg6 ((detectComps exSeg6 22 4).getD 1 [])
        ∈ (staffDetect exSeg6 22 4).staffs
    ∧ regionOf exSeg6 ((detectComps exSeg6 22 4).getD 0 [])
        ∉ (staffDetect exSeg6 22 4).staffs
    ∧ (bboxOf ((detectComps exSeg6 22 4).getD 1 [])).h = 21
    ∧ (bboxOf ((detectComps exSeg6 22 4).getD 0 [])).h = 20 :=
  ⟨(staff_height_filter exSeg6 22 4).2.1 _ (by with_unfolding_all decide)
      (by with_unfolding_all decide),
   (staff_height_filter exSeg6 22 4).2.2 _ (by with_unfolding_all decide)
      (by with_unfolding_all decide),
   by with_unfolding_all decide,
   by with_unfolding_all decide⟩

/-- C7: the staff list returned by `StaffDetector.detect` is sorted by
non-decreasing bounding-box `y`, and for every `y`-value the regions carrying
it appear in the same relative order as in the detection-order list
(stability of Python's `sorted`). -/
theorem staffs_sorted_by_y_stable (seg : RatGrid) (h w : Nat) :
    ((staffDetect seg h w).staffs).Pairwise (fun a b => a.bbox.y ≤ b.bbox.y)
    ∧ ∀ k, ((staffDetect seg h w).staffs).filter (fun r => r.bbox.y == k)
        = (detectRegionsRaw seg h w).filter (fun r => r.bbox.y == k) :=
  ⟨pairwise_sortOn (fun r => r.bbox.y) (detectRegionsRaw seg h w),
   fun k => filter_key_sortOn (fun r => r.bbox.y) (detectRegionsRaw seg h w) k⟩

/-- C2, amended: the crop sequence returned by `_extract_symbols` is ordered
by non-decreasing `codeSymKey` — the x of each crop's first nonzero GRAYSCALE
pixel (so any non-black pixel counts, not just ink), with key 0 for an
all-black crop — and crops with equal key keep their contour list order
(stable sort).  It need not be ordered by the leftmost dark-ink x. -/
theorem symbol_order_stable_by_gray_nonzero_key (img : Img) :
    (extractSymbols img).Pairwise (fun a b => codeSymKey a ≤ codeSymKey b)
    ∧ ∀ k, (extractSymbols img).filter (fun s => codeSymKey s == k)
        = ((symbolBoxes img).map (cropImg img)).filter (fun s => codeSymKey s == k) :=
  ⟨pairwise_sortOn codeSymKey ((symbolBoxes img).map (cropImg img)),
   fun k => filter_key_sortOn codeSymKey ((symbolBoxes img).map (cropImg img)) k⟩

/-- C2, counterexample: on `exSymImg`, the lower-right crop has a nonzero
grayscale pixel at its local (0, 0) and the upper crop is all black, so both
code sort keys are 0 and the stable sort keeps the contour list order —
bottom-most blob first — while ordering by the first dark-ink x (10 for the
first crop, 2 for the second) would swap them.  The returned sequence is NOT
ordered by ascending leftmost-foreground x. -/
theorem symbol_order_not_by_foreground_x :
    extractSymbols exSymImg ≠ specOrderedSymbols exSymImg
    ∧ extractSymbols exSymImg
        = [cropImg exSymImg { x := 10, y := 6, w := 6, h := 6 },
           cropImg exSymImg { x := 2, y := 0, w := 6, h := 6 }]
    ∧ specOrderedSymbols exSymImg
        = [cropImg exSymImg { x := 2, y := 0, w := 6, h := 6 },
           cropImg exSymImg { x := 10, y := 6, w := 6, h := 6 }]
    ∧ specSymKey exSymImg { x := 10, y := 6, w := 6, h := 6 } = 10
    ∧ specSymKey exSymImg { x := 2, y := 0, w := 6, h := 6 } = 2 := by
  with_unfolding_all decide

/-- C3: `scan_sheet_music` never raises — it is a total function of the
state and image, and every exception `e` raised inside the try block
(staff detection, symbol segmentation or classification) is caught and
converted to the returned value `scanFailure e`, which has `success=false`
and `error` set to the exception message; the only other outcomes are the
not-initialized early return and the try body's own returned value. -/
theorem scan_never_raises (st : OMRService) (img : Img) :
    (st.is_initialized = false ∧ scanSheetMusic st img = notInitResult)
    ∨ (∃ e, scanBody st img = Except.error e ∧ scanSheetMusic st img = scanFailure e
        ∧ (scanFailure e).success = false ∧ (scanFailure e).error = some e)
    ∨ (∃ r, scanBody st img = Except.ok r ∧ scanSheetMusic st img = r) := by
  by_cases hi : st.is_initialized
  · cases hb : scanBody st img with
    | error e =>
      exact Or.inr (Or.inl ⟨e, rfl, by simp [scanSheetMusic, hi, hb], rfl, rfl⟩)
    | ok r =>
      exact Or.inr (Or.inr ⟨r, rfl, by simp [scanSheetMusic, hi, hb]⟩)
  · exact Or.inl ⟨by simpa using hi, by simp [scanSheetMusic, hi]⟩

theorem initService_fail_flag (loadS : String → Except String StaffEngine)
    (loadY : String → ClassMap → Except String SymbolEngine) (st : OMRService)
    (sp yp : Option String) (cm : Option ClassMap)
    (hf : (initService loadS loadY st sp yp cm).1.success = false) :
    (initService loadS loadY st sp yp cm).2.is_initialized = st.is_initialized := by
  cases sp with
  | none =>
    cases yp with
    | none => simp [initService, initSymbolStage] at hf
    | some p =>
      cases hY : loadY p (cm.getD emptyClassMap) with
      | error e => simp [initService, initSymbolStage, hY]
      | ok r => simp [initService, initSymbolStage, hY] at hf
  | some q =>
    cases hS : loadS q with
    | error e => simp [initService, hS]
    | ok d =>
      cases yp with
      | none => simp [initService, initSymbolStage, hS] at hf
      | some p =>
        cases hY : loadY p (cm.getD emptyClassMap) with
        | error e => simp [initService, initSymbolStage, hS, hY]
        | ok r => simp [initService, initSymbolStage, hS, hY] at hf

theorem runInits_fail_flag (calls : List InitCall) :
    ∀ st : OMRService, st.is_initialized = false → allInitsFail st calls = true →
      (runInits st calls).is_initialized = false := by
  induction calls with
  | nil =>
    intro st h _
    exact h
  | cons c rest ih =>
    intro st h hall
    rw [show allInitsFail st (c :: rest)
        = (!(initService c.loadS c.loadY st c.staffPath c.symbolPath c.cm).1.success
          && allInitsFail (initService c.loadS c.loadY st c.staffPath c.symbolPath c.cm).2 rest)
      from rfl] at hall
    rcases Bool.and_eq_true_iff.mp hall with ⟨h1, h2⟩
    refine ih _ ?_ h2
    rw [initService_fail_flag c.loadS c.loadY st c.staffPath c.symbolPath c.cm
      (Bool.not_eq_true' .. ▸ h1)]
    exact h

/-- C4: starting from the freshly constructed service, after any sequence of
`initialize` calls that all returned `success=false`, the readiness flag is
still false, and `scan_sheet_music` returns the `success=false` result whose
error names the missing initialization — and it does so whatever engines the
attributes hold, i.e. without invoking either inference engine. -/
theorem scan_not_initialized_fails_fast (calls : List InitCall) (img : Img)
    (d : Option StaffEngine) (r : Option SymbolEngine)
    (hall : allInitsFail initialState calls = true) :
    (runInits initialState calls).is_initialized = false
    ∧ scanSheetMusic (runInits initialState calls) img = notInitResult
    ∧ scanSheetMusic
        { staff_detector := d, symbol_recognizer := r,
          is_initialized := (runInits initialState calls).is_initialized } img
      = notInitResult
    ∧ notInitResult.success = false
    ∧ notInitResult.error = some "OMR service not initialized" := by
  have hflag := runInits_fail_flag calls initialState rfl hall
  refine ⟨hflag, ?_, ?_, rfl, rfl⟩
  · simp [scanSheetMusic, hflag]
  · simp [scanSheetMusic, hflag]

/-- Witness for C4: one failing `initialize` call on the fresh service
leaves it not ready and `scan_sheet_music` fails fast. -/
theorem scan_not_initialized_fails_fast_witness :
    allInitsFail initialState [failingLoadCall] = true
    ∧ scanSheetMusic (runInits initialState [failingLoadCall]) [] = notInitResult :=
  ⟨rfl, (scan_not_initialized_fails_fast [failingLoadCall] [] none none rfl).2.1⟩

/-- C5: when the staff detector returns an empty region list on an
initialized service, `scan_sheet_music` returns `success=true`, an empty
measures list and the non-empty warning — not an error. -/
theorem scan_no_staffs_success_warning (st : OMRService) (det : StaffEngine)
    (img : Img) (dr : DetectResult) (hi : st.is_initialized = true)
    (hd : st.staff_detector = some det) (hres : det.detect img = Except.ok dr)
    (hempty : dr.staffs = []) :
    scanSheetMusic st img = noStaffsResult
    ∧ noStaffsResult.success = true
    ∧ noStaffsResult.measures = some []
    ∧ noStaffsResult.warning = some "No staffs detected in image"
    ∧ "No staffs detected in image" ≠ "" := by
  refine ⟨?_, rfl, rfl, rfl, by decide⟩
  simp [scanSheetMusic, hi, scanBody, callDetect, hd, hres, hempty]

/-- Witness for C5 at a concrete initialized state and image. -/
theorem scan_no_staffs_success_warning_witness :
    scanSheetMusic
      { staff_detector := some emptyDetEngine, symbol_recognizer := none,
        is_initialized := true } [] = noStaffsResult :=
  (scan_no_staffs_success_warning
    { staff_detector := some emptyDetEngine, symbol_recognizer := none,
      is_initialized := true }
    emptyDetEngine [] { staffs := [], segmentation_mask := [], confidence := 0 }
    rfl rfl rfl rfl).1

/-- C8: `SymbolRecognizer.recognize` always returns a result (the
post-processing is a total function), the arg-max label falls back to the
synthetic `class_<id>` string when the mapping has no entry for the arg-max
index, and every index of the returned distribution is labelled through the
same total fallback, so any unmapped index is labelled `class_<id>`. -/
theorem recognize_synthetic_labels (m : ClassMap) (preds : List Rat) :
    (m (np_argmax preds) = none →
      (recognizePost m preds).className = "class_" ++ toString (np_argmax preds))
    ∧ (recognizePost m preds).all_predictions
        = preds.enum.map (fun p => (classLabel m p.1, p.2))
    ∧ (∀ i, m i = none → classLabel m i = "class_" ++ toString i) := by
  refine ⟨?_, rfl, ?_⟩
  · intro hm
    simp [recognizePost, classLabel, hm]
  · intro i hm
    simp [classLabel, hm]

/-- Witness for C8: with an empty mapping and predictions `[0, 1]`, the
arg-max index 1 gets the synthetic label `class_1`, and index 0 would get
`class_0`. -/
theorem recognize_synthetic_labels_witness :
    (recognizePost emptyClassMap [0, 1]).className = "class_1"
    ∧ classLabel emptyClassMap 0 = "class_0" :=
  ⟨(recognize_synthetic_labels emptyClassMap [0, 1]).1 rfl,
   (recognize_synthetic_labels emptyClassMap [0, 1]).2.2 0 rfl⟩

/-- C9: `initialize` with neither engine path returns `success=true` and
sets the readiness flag, so a following `scan_sheet_music` passes the
readiness check; with no staff detector loaded it then fails through the
caught AttributeError — an ordinary caught-exception result, distinct from
the not-initialized result. -/
theorem init_no_paths_ready_scan_attr_error
    (loadS : String → Except String StaffEngine)
    (loadY : String → ClassMap → Except String SymbolEngine) (img : Img) :
    (initService loadS loadY initialState none none none).1.success = true
    ∧ (initService loadS loadY initialState none none none).2.is_initialized = true
    ∧ scanSheetMusic (initService loadS loadY initialState none none none).2 img
        = scanFailure (noneTypeNoAttr "detect")
    ∧ scanFailure (noneTypeNoAttr "detect") ≠ notInitResult := by
  refine ⟨rfl, rfl, rfl, by decide⟩

/-- C10: evaluating `OMRService()` always returns the one cached instance —
a second construction returns the same reference as the first — but each
evaluation re-runs `__init__` on it, so the instance state right after any
construction is the freshly reset `initialState`, even when the state had
been replaced (e.g. by a successful `initialize`) in between. -/
theorem singleton_construct_resets_state (w : PyWorld) (st : OMRService) :
    (constructOMRService w).2.heap (constructOMRService w).1 = initialState
    ∧ (constructOMRService (setInstanceState (constructOMRService w).2
          (constructOMRService w).1 st)).1 = (constructOMRService w).1
    ∧ (constructOMRService (setInstanceState (constructOMRService w).2
          (constructOMRService w).1 st)).2.heap (constructOMRService w).1
        = initialState := by
  cases hw : w.instRef with
  | some r =>
    refine ⟨?_, ?_, ?_⟩ <;> simp [constructOMRService, setInstanceState, hw]
  | none =>
    refine ⟨?_, ?_, ?_⟩ <;> simp [constructOMRService, setInstanceState, hw]
